import Mathlib

/-!
Verification of the FlowFit backend (fitness-tracking SaaS).

This file gives a shallow embedding of the two non-trivial parts of the
code base — the streak computation of the progress routes and the
JWT-based authentication flow of the auth routes — and proves or refutes
the specification claims about them.

Conventions of the embedding:
* timestamps are naturals counting milliseconds since the Unix epoch;
  a calendar day (the YYYY-MM-DD part of toISOString, which is UTC) is
  the timestamp divided by 86400000;
* the relational database and the optional Redis cache are explicit
  fields of a state record, and each Express handler becomes a pure
  function from state and request to response and next state;
* bcrypt hashing is an abstract parameter hashFn, and a JWT is a record
  carrying its payload, its expiry and a flag telling whether it was
  signed with the server secret (jwt.verify succeeds exactly on tokens
  carrying the right signature that have not expired).
-/

namespace FlowFit

/-! ## Streak computation (src/routes/progress.routes.ts, GET /streaks) -/

/-- UTC calendar day of a millisecond timestamp: the YYYY-MM-DD prefix of
toISOString, encoded as a day number. -/
def calendarDay (t : Nat) : Nat := t / 86400000

/-- The distinct workout days of the handler, most recent first: the source
builds the set of day strings, sorts ascending and reverses. -/
def uniqueDaysDesc (ts : List Nat) : List Nat :=
  (List.insertionSort (· ≤ ·) (ts.map calendarDay).dedup).reverse

/-- The loop of the streaks handler after its first iteration: prev is
days[i-1], streak the current run length, longest the maximum so far.
The source compares (prev - curr) in days with 1, which on the
descending day list is exactly prev = curr + 1. -/
def streakWalk : Nat → Nat → Nat → List Nat → Nat
  | _, _, longest, [] => longest
  | prev, streak, longest, curr :: rest =>
    streakWalk curr (if prev = curr + 1 then streak + 1 else 1)
      (max longest (if prev = curr + 1 then streak + 1 else 1)) rest

/-- Response payload of GET /api/v1/progress/streaks. -/
structure StreaksData where
  currentStreak : Nat
  longestStreak : Nat
  totalActiveDays : Nat
deriving DecidableEq, Repr

/-- GET /api/v1/progress/streaks on the list of workout-log
timestamps.  Mirrors the source loop: at index 0 the run length is 1,
longestStreak starts from max 0 1, and currentStreak is assigned only at
index 0. -/
def streaksOf (ts : List Nat) : StreaksData :=
  match uniqueDaysDesc ts with
  | [] => ⟨0, 0, 0⟩
  | d :: rest => ⟨1, streakWalk d 1 (max 0 1) rest, rest.length + 1⟩

/-- The streaks endpoint: HTTP status together with the payload (the
handler answers 200 on every input, the catch branch is unreachable in
the pure model). -/
def streaksEndpoint (ts : List Nat) : Nat × StreaksData :=
  (200, streaksOf ts)

/-! ### Specification side: runs of consecutive days -/

/-- Largest k such that the k consecutive days d, d+1, …, d+k-1 all
carry a workout log (are members of T).  The number of distinct members
of T bounds every such k, so T.length is a safe search bound. -/
def runLenUp (T : List Nat) (d : Nat) : Nat :=
  Nat.findGreatest (fun k => ∀ j, j < k → d + j ∈ T) T.length

/-- Length of the longest run of consecutive calendar days each carrying
a workout log: the greatest k for which some d starts a run of k
consecutive members of T. -/
def longestRunSpec (T : List Nat) : Nat :=
  Nat.findGreatest (fun k => ∃ d ∈ T, ∀ j, j < k → d + j ∈ T) T.length

/-- Fold giving the maximum of a list of naturals (0 on the empty
list). -/
def maxList (l : List Nat) : Nat := l.foldr max 0

/-- Length of the run of consecutive logged days ending at the most
recent logged day: the greatest k such that the k days walking backwards
from the maximum day are all members of T. -/
def currentRunSpec (T : List Nat) : Nat :=
  if T = [] then 0
  else
    Nat.findGreatest
      (fun k => k ≤ maxList T + 1 ∧ ∀ j, j < k → maxList T - j ∈ T)
      T.length

/-! ## Streak record maintained by the workout-log route
(src/routes/progress.routes.ts, updateStreak) -/

/-- The per-user Streak row of the schema.  Dates are day-granular
(midnight-normalized) and carried as integers. -/
structure Streak where
  currentStreak : Nat
  longestStreak : Nat
  lastWorkoutDate : Option Int
deriving DecidableEq, Repr

/-- updateStreak, run after every logged workout: creates the row with
both counters 1, returns unchanged when already logged today, else
increments the current streak when the last workout day was yesterday
(resetting to 1 otherwise) and raises the longest streak to the maximum
of its old value and the new current streak. -/
def updateStreak (today : Int) : Option Streak → Option Streak
  | none => some ⟨1, 1, some today⟩
  | some existing =>
    match existing.lastWorkoutDate with
    | none => some ⟨1, max existing.longestStreak 1, some today⟩
    | some last =>
      if last = today then some existing
      else
        if last = today - 1 then
          some ⟨existing.currentStreak + 1,
            max existing.longestStreak (existing.currentStreak + 1), some today⟩
        else
          some ⟨1, max existing.longestStreak 1, some today⟩

/-- States of the Streak row reachable from an absent row by any
sequence of updateStreak calls. -/
inductive StreakReachable : Option Streak → Prop
  | init : StreakReachable none
  | step (today : Int) (s : Option Streak) :
      StreakReachable s → StreakReachable (updateStreak today s)

/-! ## Authentication flow (src/routes/auth.routes.ts) -/

def ACCESS_EXPIRES_SECONDS : Nat := 15 * 60

def REFRESH_EXPIRES_SECONDS : Nat := 7 * 24 * 60 * 60

/-- A signed access JWT: payload userId, issue and expiry times, and a
flag recording whether it carries a signature by the access
secret (jwt.verify succeeds exactly on signed, unexpired tokens). -/
structure AToken where
  userId : String
  iat : Nat
  exp : Nat
  sig : Bool
deriving DecidableEq, Repr

/-- A signed refresh JWT, same reading as AToken but for the refresh
secret. -/
structure RToken where
  userId : String
  iat : Nat
  exp : Nat
  sig : Bool
deriving DecidableEq, Repr

/-- generateTokens: a fresh access/refresh pair for a user, signed now,
with the 15m / 7d lifetimes of the source. -/
def generateTokens (userId : String) (now : Nat) : AToken × RToken :=
  (⟨userId, now, now + ACCESS_EXPIRES_SECONDS, true⟩,
   ⟨userId, now, now + REFRESH_EXPIRES_SECONDS, true⟩)

/-- jwt.verify against the refresh secret: yields the payload userId on
a correctly signed, unexpired token and fails (throws, in the source)
otherwise. -/
def verifyRefresh (t : RToken) (now : Nat) : Option String :=
  if t.sig ∧ now < t.exp then some t.userId else none

/-- jwt.verify against the access secret. -/
def verifyAccess (t : AToken) (now : Nat) : Option String :=
  if t.sig ∧ now < t.exp then some t.userId else none

/-- A row of the user table (pwHash is the bcrypt hash the source keeps
in the password column). -/
structure User where
  id : String
  name : String
  email : String
  pwHash : String
deriving DecidableEq, Repr

/-- The user record returned to clients: the row minus the password
hash. -/
structure SafeUser where
  id : String
  name : String
  email : String
deriving DecidableEq, Repr

def User.safe (u : User) : SafeUser := ⟨u.id, u.name, u.email⟩

/-- Server state seen by the auth routes: the user table, whether the
optional Redis client exists (REDIS_URL set), and the refresh-token
entries of the cache, keyed by userId. -/
structure AuthState where
  users : List User
  redisPresent : Bool
  store : List (String × RToken)
deriving DecidableEq, Repr

def redisGet (store : List (String × RToken)) (uid : String) : Option RToken :=
  (store.find? (fun p => p.1 == uid)).map (fun p => p.2)

def redisSet (store : List (String × RToken)) (uid : String) (t : RToken) :
    List (String × RToken) :=
  (uid, t) :: store.filter (fun p => p.1 != uid)

def redisDel (store : List (String × RToken)) (uid : String) :
    List (String × RToken) :=
  store.filter (fun p => p.1 != uid)

/-- storeRefreshToken: writes refresh:userId in Redis when the client
exists, otherwise does nothing. -/
def storeRefreshToken (st : AuthState) (userId : String) (token : RToken) : AuthState :=
  if st.redisPresent then { st with store := redisSet st.store userId token } else st

/-- invalidateRefreshToken: deletes refresh:userId when the client
exists, otherwise does nothing. -/
def invalidateRefreshToken (st : AuthState) (userId : String) : AuthState :=
  if st.redisPresent then { st with store := redisDel st.store userId } else st

/-- The refresh token persisted server-side for a user: the cache entry
when the cache exists, nothing otherwise (the source persists tokens
nowhere else). -/
def persistedFor (st : AuthState) (userId : String) : Option RToken :=
  if st.redisPresent then redisGet st.store userId else none

def findUserByEmail (st : AuthState) (email : String) : Option User :=
  st.users.find? (fun u => u.email == email)

def findUserById (st : AuthState) (id : String) : Option User :=
  st.users.find? (fun u => u.id == id)

/-- An HTTP JSON response: status code, success payload, error
message. -/
structure Resp (α : Type) where
  status : Nat
  data : Option α
  error : Option String
deriving DecidableEq, Repr

/-- POST /api/v1/auth/register.  Body fields are Option String (absent
models a missing field; the source also treats the empty string as
missing through JS falsiness).  newId is the id the database assigns to
the created row. -/
def registerHandler (hashFn : String → String) (st : AuthState)
    (name email password : Option String) (newId : String) (now : Nat) :
    Resp (SafeUser × AToken × RToken) × AuthState :=
  match name, email, password with
  | some nm, some em, some pw =>
    if nm.isEmpty ∨ em.isEmpty ∨ pw.isEmpty then
      (⟨400, none, some "Name, email and password are required."⟩, st)
    else if pw.length < 8 then
      (⟨400, none, some "Password must be at least 8 characters."⟩, st)
    else
      match findUserByEmail st em with
      | some _ => (⟨409, none, some "An account with that email already exists."⟩, st)
      | none =>
        let u : User := ⟨newId, nm, em, hashFn pw⟩
        let tokens := generateTokens u.id now
        (⟨201, some (u.safe, tokens.1, tokens.2), none⟩,
          storeRefreshToken { st with users := st.users ++ [u] } u.id tokens.2)
  | _, _, _ => (⟨400, none, some "Name, email and password are required."⟩, st)

/-- POST /api/v1/auth/login. -/
def loginHandler (hashFn : String → String) (st : AuthState)
    (email password : Option String) (now : Nat) :
    Resp (SafeUser × AToken × RToken) × AuthState :=
  match email, password with
  | some em, some pw =>
    if em.isEmpty ∨ pw.isEmpty then
      (⟨400, none, some "Email and password are required."⟩, st)
    else
      match findUserByEmail st em with
      | none => (⟨401, none, some "Invalid email or password."⟩, st)
      | some u =>
        if hashFn pw = u.pwHash then
          let tokens := generateTokens u.id now
          (⟨200, some (u.safe, tokens.1, tokens.2), none⟩,
            storeRefreshToken st u.id tokens.2)
        else (⟨401, none, some "Invalid email or password."⟩, st)
  | _, _ => (⟨400, none, some "Email and password are required."⟩, st)

/-- POST /api/v1/auth/logout: a missing or unverifiable token lands in
the catch branch, which still answers 200. -/
def logoutHandler (st : AuthState) (body : Option RToken) (now : Nat) :
    Resp String × AuthState :=
  match body with
  | none => (⟨200, some "Logged out successfully.", none⟩, st)
  | some t =>
    match verifyRefresh t now with
    | none => (⟨200, some "Logged out successfully.", none⟩, st)
    | some uid => (⟨200, some "Logged out successfully.", none⟩, invalidateRefreshToken st uid)

/-- POST /api/v1/auth/refresh: verify the token, compare with the cache
entry when the client exists, look the user up, then store the new
refresh token (one cache write that both replaces the old entry and
records the new pair). -/
def refreshHandler (st : AuthState) (body : Option RToken) (now : Nat) :
    Resp (AToken × RToken) × AuthState :=
  match body with
  | none => (⟨400, none, some "Refresh token required."⟩, st)
  | some t =>
    match verifyRefresh t now with
    | none => (⟨401, none, some "Invalid or expired refresh token."⟩, st)
    | some uid =>
      if st.redisPresent ∧ redisGet st.store uid ≠ some t then
        (⟨401, none, some "Invalid or expired refresh token."⟩, st)
      else
        match findUserById st uid with
        | none => (⟨401, none, some "User not found."⟩, st)
        | some u =>
          let tokens := generateTokens u.id now
          (⟨200, some (tokens.1, tokens.2), none⟩, storeRefreshToken st u.id tokens.2)

/-- POST /api/v1/auth/change-password. -/
def changePasswordHandler (hashFn : String → String) (st : AuthState)
    (auth : Option AToken) (currentPassword newPassword : Option String)
    (now : Nat) : Resp String × AuthState :=
  match auth with
  | none => (⟨401, none, some "No token provided."⟩, st)
  | some atok =>
    match verifyAccess atok now with
    | none => (⟨401, none, some "Invalid or expired token."⟩, st)
    | some uid =>
      match currentPassword, newPassword with
      | some cpw, some npw =>
        if cpw.isEmpty ∨ npw.isEmpty then
          (⟨400, none, some "Both current and new password are required."⟩, st)
        else if npw.length < 8 then
          (⟨400, none, some "New password must be at least 8 characters."⟩, st)
        else
          match findUserById st uid with
          | none => (⟨404, none, some "User not found."⟩, st)
          | some u =>
            if hashFn cpw = u.pwHash then
              (⟨200, some "Password changed successfully.", none⟩,
                invalidateRefreshToken
                  { st with users :=
                      st.users.map (fun v => if v.id = uid then { v with pwHash := hashFn npw } else v) }
                  uid)
            else (⟨401, none, some "Current password is incorrect."⟩, st)
      | _, _ => (⟨400, none, some "Both current and new password are required."⟩, st)

/-- A deployment without REDIS_URL, one registered user; used by the
concrete counterexamples. -/
def cacheFreeState : AuthState :=
  ⟨[⟨"u1", "Ann", "ann@example.com", "pw12345678"⟩], false, []⟩

/-- A deployment with the cache configured, same single user. -/
def cachedState : AuthState :=
  ⟨[⟨"u1", "Ann", "ann@example.com", "pw12345678"⟩], true, []⟩

/-- A refresh token for u1 signed at time 0. -/
def oldTok : RToken := ⟨"u1", 0, REFRESH_EXPIRES_SECONDS, true⟩

/-- The cached deployment after oldTok was stored for u1. -/
def cachedStateWithTok : AuthState :=
  ⟨[⟨"u1", "Ann", "ann@example.com", "pw12345678"⟩], true, [("u1", oldTok)]⟩

/-! ### Lemmas about runs and the walk -/

lemma run_le_length {T : List Nat} {d k : Nat} (h : ∀ j, j < k → d + j ∈ T) :
    k ≤ T.length := by
  have hsub : ((List.range k).map (fun j => d + j)).toFinset ⊆ T.toFinset := by
    intro x hx
    simp only [List.mem_toFinset, List.mem_map, List.mem_range] at hx
    obtain ⟨j, hj, rfl⟩ := hx
    exact List.mem_toFinset.2 (h j hj)
  have hnd : ((List.range k).map (fun j => d + j)).Nodup :=
    List.Nodup.map (fun a b hab => by omega) (List.nodup_range k)
  have hcard : ((List.range k).map (fun j => d + j)).toFinset.card = k := by
    rw [List.toFinset_card_of_nodup hnd, List.length_map, List.length_range]
  calc k = ((List.range k).map (fun j => d + j)).toFinset.card := hcard.symm
    _ ≤ T.toFinset.card := Finset.card_le_card hsub
    _ ≤ T.length := List.toFinset_card_le T

lemma runLenUp_eq_zero {T : List Nat} {d : Nat} (h : d ∉ T) : runLenUp T d = 0 := by
  apply Nat.findGreatest_eq_zero_iff.2
  intro m hm _ hP
  exact h (by simpa using hP 0 hm)

lemma runLenUp_spec (T : List Nat) (d : Nat) :
    ∀ j, j < runLenUp T d → d + j ∈ T := by
  rcases Nat.eq_zero_or_pos (runLenUp T d) with h0 | hpos
  · intro j hj; omega
  · have h0 : runLenUp T d ≠ 0 := by omega
    exact Nat.findGreatest_of_ne_zero rfl h0

lemma runLenUp_le (T : List Nat) (d : Nat) : runLenUp T d ≤ T.length :=
  Nat.findGreatest_le _

lemma runLenUp_succ {T : List Nat} {d : Nat} (h : d ∈ T) :
    runLenUp T d = runLenUp T (d + 1) + 1 := by
  have hPm : ∀ j, j < runLenUp T (d + 1) → (d + 1) + j ∈ T := runLenUp_spec T (d + 1)
  have hPd : ∀ j, j < runLenUp T (d + 1) + 1 → d + j ∈ T := by
    intro j hj
    cases j with
    | zero => simpa using h
    | succ i =>
      have e : d + (i + 1) = (d + 1) + i := by omega
      rw [e]
      exact hPm i (by omega)
  have hb : runLenUp T (d + 1) + 1 ≤ T.length := run_le_length hPd
  have hle : runLenUp T (d + 1) + 1 ≤ runLenUp T d :=
    Nat.le_findGreatest (P := fun k => ∀ j, j < k → d + j ∈ T) hb hPd
  have hge : runLenUp T d ≤ runLenUp T (d + 1) + 1 := by
    by_contra hc
    push_neg at hc
    have hspec : ∀ j, j < runLenUp T d → d + j ∈ T := runLenUp_spec T d
    have hP1 : ∀ j, j < runLenUp T d - 1 → (d + 1) + j ∈ T := by
      intro j hj
      have hmem : d + (j + 1) ∈ T := hspec (j + 1) (by omega)
      have e : (d + 1) + j = d + (j + 1) := by omega
      rw [e]
      exact hmem
    have hb1 : runLenUp T d - 1 ≤ T.length := by
      have := runLenUp_le T d
      omega
    have hle1 : runLenUp T d - 1 ≤ runLenUp T (d + 1) :=
      Nat.le_findGreatest (P := fun k => ∀ j, j < k → (d + 1) + j ∈ T) hb1 hP1
    omega
  omega

lemma le_maxList {l : List Nat} {x : Nat} (h : x ∈ l) : x ≤ maxList l := by
  induction l with
  | nil => cases h
  | cons a t ih =>
    rcases List.mem_cons.1 h with rfl | h
    · exact le_max_left _ _
    · exact le_trans (ih h) (le_max_right _ _)

lemma maxList_le {l : List Nat} {b : Nat} (h : ∀ x ∈ l, x ≤ b) : maxList l ≤ b := by
  induction l with
  | nil => exact Nat.zero_le b
  | cons a t ih =>
    exact max_le (h a (List.mem_cons_self a t)) (ih fun x hx => h x (List.mem_cons_of_mem a hx))

lemma streakWalk_eq (T : List Nat) (l : List Nat) :
    ∀ prev lg : Nat,
      List.Pairwise (· > ·) (prev :: l) →
      (∀ x ∈ prev :: l, x ∈ T) →
      (∀ x ∈ T, x ≤ prev → x ∈ prev :: l) →
      streakWalk prev (runLenUp T prev) lg l
        = max lg (maxList (l.map (runLenUp T))) := by
  induction l with
  | nil =>
    intro prev lg _ _ _
    simp [streakWalk, maxList]
  | cons c rest ih =>
    intro prev lg hpw hmem hclosed
    have hgt : prev > c := (List.pairwise_cons.1 hpw).1 c (List.mem_cons_self _ _)
    have hpwt : List.Pairwise (· > ·) (c :: rest) := (List.pairwise_cons.1 hpw).2
    have hcT : c ∈ T := hmem c (List.mem_cons_of_mem _ (List.mem_cons_self _ _))
    have hs : (if prev = c + 1 then runLenUp T prev + 1 else 1) = runLenUp T c := by
      by_cases hpc : prev = c + 1
      · rw [if_pos hpc, runLenUp_succ hcT, hpc]
      · rw [if_neg hpc]
        have hnot : c + 1 ∉ T := by
          intro hin
          have hle : c + 1 ≤ prev := hgt
          have hx := hclosed (c + 1) hin hle
          rcases List.mem_cons.1 hx with h1 | h2
          · exact hpc h1.symm
          · rcases List.mem_cons.1 h2 with h3 | h4
            · omega
            · have := (List.pairwise_cons.1 hpwt).1 _ h4
              omega
        rw [runLenUp_succ hcT, runLenUp_eq_zero hnot]
    have hmemt : ∀ x ∈ c :: rest, x ∈ T := fun x hx => hmem x (List.mem_cons_of_mem _ hx)
    have hclosedt : ∀ x ∈ T, x ≤ c → x ∈ c :: rest := by
      intro x hxT hxc
      have hx := hclosed x hxT (le_trans hxc (le_of_lt hgt))
      rcases List.mem_cons.1 hx with h1 | h2
      · omega
      · exact h2
    have ihc := ih c (max lg (runLenUp T c)) hpwt hmemt hclosedt
    show streakWalk c (if prev = c + 1 then runLenUp T prev + 1 else 1)
        (max lg (if prev = c + 1 then runLenUp T prev + 1 else 1)) rest
      = max lg (maxList ((c :: rest).map (runLenUp T)))
    rw [hs, ihc]
    show max (max lg (runLenUp T c)) (maxList (rest.map (runLenUp T)))
      = max lg (max (runLenUp T c) (maxList (rest.map (runLenUp T))))
    rw [max_assoc]

lemma maxList_map_runLenUp (T : List Nat) :
    maxList (T.map (runLenUp T)) = longestRunSpec T := by
  apply le_antisymm
  · apply maxList_le
    intro x hx
    obtain ⟨d, hd, rfl⟩ := List.mem_map.1 hx
    rcases Nat.eq_zero_or_pos (runLenUp T d) with h0 | hpos
    · omega
    · exact Nat.le_findGreatest (P := fun k => ∃ d ∈ T, ∀ j, j < k → d + j ∈ T)
        (runLenUp_le T d) ⟨d, hd, runLenUp_spec T d⟩
  · rcases Nat.eq_zero_or_pos (longestRunSpec T) with h0 | hpos
    · omega
    · have h0 : longestRunSpec T ≠ 0 := by omega
      have hP : ∃ d ∈ T, ∀ j, j < longestRunSpec T → d + j ∈ T :=
        Nat.findGreatest_of_ne_zero rfl h0
      obtain ⟨d, hd, hrun⟩ := hP
      calc longestRunSpec T
          ≤ runLenUp T d :=
            Nat.le_findGreatest (P := fun k => ∀ j, j < k → d + j ∈ T)
              (Nat.findGreatest_le _) hrun
        _ ≤ maxList (T.map (runLenUp T)) := le_maxList (List.mem_map_of_mem _ hd)

lemma longestRunSpec_mono {T U : List Nat} (h : ∀ x, x ∈ T → x ∈ U) :
    longestRunSpec T ≤ longestRunSpec U := by
  rcases Nat.eq_zero_or_pos (longestRunSpec T) with h0 | hpos
  · omega
  · have h0 : longestRunSpec T ≠ 0 := by omega
    have hP : ∃ d ∈ T, ∀ j, j < longestRunSpec T → d + j ∈ T :=
      Nat.findGreatest_of_ne_zero rfl h0
    obtain ⟨d, hd, hrun⟩ := hP
    have hrunU : ∀ j, j < longestRunSpec T → d + j ∈ U := fun j hj => h _ (hrun j hj)
    exact Nat.le_findGreatest (P := fun k => ∃ d ∈ U, ∀ j, j < k → d + j ∈ U)
      (run_le_length hrunU) ⟨d, h d hd, hrunU⟩

lemma longestRunSpec_congr {T U : List Nat} (h : ∀ x, x ∈ T ↔ x ∈ U) :
    longestRunSpec T = longestRunSpec U :=
  le_antisymm (longestRunSpec_mono fun x hx => (h x).1 hx)
    (longestRunSpec_mono fun x hx => (h x).2 hx)

lemma mem_uniqueDaysDesc {ts : List Nat} {x : Nat} :
    x ∈ uniqueDaysDesc ts ↔ x ∈ ts.map calendarDay := by
  unfold uniqueDaysDesc
  rw [List.mem_reverse, (List.perm_insertionSort _ _).mem_iff]
  exact List.mem_dedup

lemma pairwise_lt_of_le_nodup {l : List Nat}
    (h1 : List.Pairwise (· ≤ ·) l) (h2 : l.Nodup) :
    List.Pairwise (· < ·) l := by
  induction l with
  | nil => exact List.Pairwise.nil
  | cons a t ih =>
    rcases List.pairwise_cons.1 h1 with ⟨hle, h1t⟩
    rcases List.nodup_cons.1 h2 with ⟨hnotin, h2t⟩
    refine List.pairwise_cons.2 ⟨fun b hb => ?_, ih h1t h2t⟩
    exact lt_of_le_of_ne (hle b hb) (fun e => hnotin (e ▸ hb))

lemma pairwise_gt_uniqueDaysDesc (ts : List Nat) :
    List.Pairwise (· > ·) (uniqueDaysDesc ts) := by
  have hsorted : List.Sorted (· ≤ ·)
      (List.insertionSort (· ≤ ·) (ts.map calendarDay).dedup) :=
    List.sorted_insertionSort _ _
  have hnd : (List.insertionSort (· ≤ ·) (ts.map calendarDay).dedup).Nodup :=
    (List.perm_insertionSort _ _).nodup_iff.2 (List.nodup_dedup _)
  have hlt := pairwise_lt_of_le_nodup hsorted hnd
  unfold uniqueDaysDesc
  exact List.pairwise_reverse.2 hlt

/-- Claim C5: for every user, the longestStreak value returned by
GET /api/v1/progress/streaks equals the length of the longest run of
consecutive calendar days in the log history of the user, each day containing
at least one workout log (0 when the user has no logs). -/
theorem streaks_longestStreak_correct (ts : List Nat) :
    (streaksOf ts).longestStreak = longestRunSpec (ts.map calendarDay) := by
  have hcongr : longestRunSpec (uniqueDaysDesc ts) = longestRunSpec (ts.map calendarDay) :=
    longestRunSpec_congr (fun x => mem_uniqueDaysDesc)
  rw [← hcongr]
  cases hdays : uniqueDaysDesc ts with
  | nil =>
    simp only [streaksOf, hdays, longestRunSpec, List.length_nil, Nat.findGreatest_zero]
  | cons d rest =>
    have hpw : List.Pairwise (· > ·) (d :: rest) := hdays ▸ pairwise_gt_uniqueDaysDesc ts
    have h1 : runLenUp (d :: rest) d = 1 := by
      have hd1 : d + 1 ∉ d :: rest := by
        intro hin
        rcases List.mem_cons.1 hin with h | h
        · omega
        · have := (List.pairwise_cons.1 hpw).1 _ h
          omega
      rw [runLenUp_succ (List.mem_cons_self d rest), runLenUp_eq_zero hd1]
    have hwalk := streakWalk_eq (d :: rest) rest d 1 hpw (fun x hx => hx) (fun x hx _ => hx)
    rw [h1] at hwalk
    have hgoal : (streaksOf ts).longestStreak = streakWalk d 1 (max 0 1) rest := by
      simp only [streaksOf, hdays]
    rw [hgoal, ← maxList_map_runLenUp]
    have hmax01 : max 0 1 = 1 := by decide
    rw [hmax01, hwalk]
    show max 1 (maxList (rest.map (runLenUp (d :: rest))))
      = maxList ((d :: rest).map (runLenUp (d :: rest)))
    simp only [List.map_cons, maxList, List.foldr, h1]


/-! ### Lemmas about the cache and the auth state -/

lemma redisGet_redisSet_self (s : List (String × RToken)) (uid : String) (t : RToken) :
    redisGet (redisSet s uid t) uid = some t := by
  unfold redisGet redisSet
  rw [List.find?_cons_of_pos]
  · rfl
  · simp

lemma redisGet_redisDel_self (s : List (String × RToken)) (uid : String) :
    redisGet (redisDel s uid) uid = none := by
  unfold redisGet redisDel
  induction s with
  | nil => rfl
  | cons p rest ih =>
    rw [List.filter_cons]
    by_cases h : p.1 = uid
    · rw [if_neg (by simp [h])]
      exact ih
    · rw [if_pos (by simp [h]), List.find?_cons_of_neg _ (by simp [h])]
      exact ih

lemma storeRefreshToken_users (st : AuthState) (uid : String) (t : RToken) :
    (storeRefreshToken st uid t).users = st.users := by
  unfold storeRefreshToken
  split <;> rfl

lemma storeRefreshToken_redisPresent (st : AuthState) (uid : String) (t : RToken) :
    (storeRefreshToken st uid t).redisPresent = st.redisPresent := by
  unfold storeRefreshToken
  split <;> rfl

lemma invalidateRefreshToken_users (st : AuthState) (uid : String) :
    (invalidateRefreshToken st uid).users = st.users := by
  unfold invalidateRefreshToken
  split <;> rfl

lemma persistedFor_store_self {st : AuthState} (h : st.redisPresent = true)
    (uid : String) (t : RToken) :
    persistedFor (storeRefreshToken st uid t) uid = some t := by
  unfold persistedFor storeRefreshToken
  simp [h, redisGet_redisSet_self]

lemma persistedFor_invalidate_self (st : AuthState) (uid : String) :
    persistedFor (invalidateRefreshToken st uid) uid = none := by
  unfold persistedFor invalidateRefreshToken
  by_cases h : st.redisPresent <;> simp [h, redisGet_redisDel_self]

lemma verifyRefresh_some {t : RToken} {now : Nat} {uid : String}
    (h : verifyRefresh t now = some uid) :
    uid = t.userId ∧ t.sig = true ∧ now < t.exp := by
  unfold verifyRefresh at h
  split at h
  · rename_i hc
    exact ⟨(Option.some.inj h).symm, hc.1, hc.2⟩
  · cases h

lemma findUserById_id {st : AuthState} {uid : String} {u : User}
    (h : findUserById st uid = some u) : u.id = uid := by
  unfold findUserById at h
  have := List.find?_some h
  simpa using this

lemma findUserById_congr {s1 s2 : AuthState} (h : s1.users = s2.users) (uid : String) :
    findUserById s1 uid = findUserById s2 uid := by
  unfold findUserById
  rw [h]

lemma storeRefreshToken_store_of_present {st : AuthState} (h : st.redisPresent = true)
    (uid : String) (t : RToken) :
    (storeRefreshToken st uid t).store = redisSet st.store uid t := by
  unfold storeRefreshToken
  rw [if_pos h]

lemma refreshHandler_badVerify {t : RToken} {now : Nat}
    (hv : verifyRefresh t now = none) (st : AuthState) :
    refreshHandler st (some t) now
      = (⟨401, none, some "Invalid or expired refresh token."⟩, st) := by
  simp [refreshHandler, hv]

lemma refreshHandler_mismatch {st : AuthState} {t : RToken} {now : Nat}
    (hv : verifyRefresh t now = some t.userId)
    (hmis : st.redisPresent = true ∧ redisGet st.store t.userId ≠ some t) :
    refreshHandler st (some t) now
      = (⟨401, none, some "Invalid or expired refresh token."⟩, st) := by
  simp only [refreshHandler, hv]
  rw [if_pos hmis]

lemma refreshHandler_noUser {st : AuthState} {t : RToken} {now : Nat}
    (hv : verifyRefresh t now = some t.userId)
    (hmis : ¬(st.redisPresent = true ∧ redisGet st.store t.userId ≠ some t))
    (hu : findUserById st t.userId = none) :
    refreshHandler st (some t) now = (⟨401, none, some "User not found."⟩, st) := by
  simp only [refreshHandler, hv]
  rw [if_neg hmis, hu]

lemma refreshHandler_ok {st : AuthState} {t : RToken} {now : Nat} {u : User}
    (hv : verifyRefresh t now = some t.userId)
    (hmis : ¬(st.redisPresent = true ∧ redisGet st.store t.userId ≠ some t))
    (hu : findUserById st t.userId = some u) :
    refreshHandler st (some t) now
      = (⟨200, some ((generateTokens u.id now).1, (generateTokens u.id now).2), none⟩,
          storeRefreshToken st u.id (generateTokens u.id now).2) := by
  simp only [refreshHandler, hv]
  rw [if_neg hmis, hu]

/-! ### Claim theorems -/

/-- Claim C1 (code bug shown on the failing input): with workout logs at
the two consecutive UTC days 1970-01-02 and 1970-01-03, the streaks
handler answers currentStreak 1 — its loop assigns currentStreak only at
index 0 — although the run of consecutive logged days ending at the most
recent logged day has length 2, which is what the definition in the spec of
the streak requires. -/
theorem currentStreak_bug_eval :
    (streaksOf [86400000, 172800000]).currentStreak = 1 ∧
    currentRunSpec ([86400000, 172800000].map calendarDay) = 2 := by decide

/-- Claim C6: the streaks endpoint answers 200 on every history, and on
an empty history it returns zero for currentStreak, longestStreak and
totalActiveDays rather than an error. -/
theorem streaks_empty_history_ok :
    (∀ ts : List Nat, (streaksEndpoint ts).1 = 200) ∧
    streaksEndpoint [] = (200, ⟨0, 0, 0⟩) :=
  ⟨fun _ => rfl, by decide⟩

/-- Claim C9: every Streak row reachable by updateStreak calls from the
absent row satisfies 1 ≤ currentStreak and
currentStreak ≤ longestStreak. -/
theorem streak_row_invariant (s : Option Streak) (h : StreakReachable s) :
    ∀ r : Streak, s = some r →
      1 ≤ r.currentStreak ∧ r.currentStreak ≤ r.longestStreak := by
  induction h with
  | init => intro r hr; cases hr
  | step today s hs ih =>
    intro r hr
    cases s with
    | none =>
      rw [show updateStreak today none = some ⟨1, 1, some today⟩ from rfl] at hr
      cases hr
      exact ⟨le_refl 1, le_refl 1⟩
    | some ex =>
      obtain ⟨h1, h2⟩ := ih ex rfl
      cases hld : ex.lastWorkoutDate with
      | none =>
        simp only [updateStreak, hld] at hr
        cases hr
        exact ⟨le_refl 1, le_max_right _ _⟩
      | some last =>
        simp only [updateStreak, hld] at hr
        by_cases htoday : last = today
        · rw [if_pos htoday] at hr
          cases hr
          exact ⟨h1, h2⟩
        · rw [if_neg htoday] at hr
          by_cases hyest : last = today - 1
          · rw [if_pos hyest] at hr
            cases hr
            exact ⟨Nat.le_add_left 1 _, le_max_right _ _⟩
          · rw [if_neg hyest] at hr
            cases hr
            exact ⟨le_refl 1, le_max_right _ _⟩

/-- Witness for C9 at a concrete reachable row. -/
theorem streak_row_invariant_witness :
    1 ≤ (⟨1, 1, some 0⟩ : Streak).currentStreak ∧
      (⟨1, 1, some 0⟩ : Streak).currentStreak ≤ (⟨1, 1, some 0⟩ : Streak).longestStreak :=
  streak_row_invariant (updateStreak 0 none) (.step 0 none .init) ⟨1, 1, some 0⟩ rfl

/-- Claim C10: logout answers 200 with a success body for every request
body; an unverifiable token leaves the state unchanged, and a verifiable
token leaves no persisted refresh token for its user. -/
theorem logout_always_succeeds (st : AuthState) (body : Option RToken) (now : Nat) :
    ((logoutHandler st body now).1.status = 200 ∧
      (logoutHandler st body now).1.data = some "Logged out successfully.") ∧
    (∀ t, body = some t → verifyRefresh t now = none →
      (logoutHandler st body now).2 = st) ∧
    (∀ t uid, body = some t → verifyRefresh t now = some uid →
      persistedFor (logoutHandler st body now).2 uid = none) := by
  cases body with
  | none =>
    exact ⟨⟨rfl, rfl⟩, fun t ht => Option.noConfusion ht, fun t uid ht => Option.noConfusion ht⟩
  | some t =>
    cases hv : verifyRefresh t now with
    | none =>
      refine ⟨⟨?_, ?_⟩, ?_, ?_⟩
      · simp [logoutHandler, hv]
      · simp [logoutHandler, hv]
      · intro t2 ht2 _
        injection ht2 with he
        subst he
        simp [logoutHandler, hv]
      · intro t2 uid ht2 hv2
        injection ht2 with he
        subst he
        rw [hv] at hv2
        cases hv2
    | some uid =>
      refine ⟨⟨?_, ?_⟩, ?_, ?_⟩
      · simp [logoutHandler, hv]
      · simp [logoutHandler, hv]
      · intro t2 ht2 hv2
        injection ht2 with he
        subst he
        rw [hv] at hv2
        cases hv2
      · intro t2 uid2 ht2 hv2
        injection ht2 with he
        subst he
        rw [hv] at hv2
        injection hv2 with hu
        subst hu
        have hred : (logoutHandler st (some t) now).2 = invalidateRefreshToken st uid := by
          simp [logoutHandler, hv]
        rw [hred]
        exact persistedFor_invalidate_self st uid

/-- Witness for C10 at a concrete valid-token logout. -/
theorem logout_always_succeeds_witness :
    (logoutHandler cachedState (some oldTok) 5).1.status = 200 ∧
    persistedFor (logoutHandler cachedState (some oldTok) 5).2 "u1" = none :=
  ⟨(logout_always_succeeds cachedState (some oldTok) 5).1.1,
   (logout_always_succeeds cachedState (some oldTok) 5).2.2 oldTok "u1" rfl (by decide)⟩

/-- Claim C2 (amended to deployments with the cache): when the Redis
client exists and POST /refresh succeeds for a presented token, the new
refresh token is the only persisted one, every later refresh presenting
a different token for that user is rejected, and the new token itself is
accepted while unexpired — the one cache write of the rotation both
invalidates the old entry and records the new one. -/
theorem refresh_rotation_with_cache (st : AuthState) (old : RToken) (now : Nat)
    (hredis : st.redisPresent = true)
    (hsucc : (refreshHandler st (some old) now).1.status = 200) :
    persistedFor (refreshHandler st (some old) now).2 old.userId
        = some (generateTokens old.userId now).2 ∧
    (∀ (t : RToken) (n2 : Nat), t.userId = old.userId →
      t ≠ (generateTokens old.userId now).2 →
      (refreshHandler (refreshHandler st (some old) now).2 (some t) n2).1.status ≠ 200) ∧
    (∀ n2 : Nat, n2 < now + REFRESH_EXPIRES_SECONDS →
      (refreshHandler (refreshHandler st (some old) now).2
        (some (generateTokens old.userId now).2) n2).1.status = 200) := by
  cases hv : verifyRefresh old now with
  | none =>
    rw [refreshHandler_badVerify hv st] at hsucc
    simp at hsucc
  | some uid =>
    obtain ⟨huid, hsig, hexp⟩ := verifyRefresh_some hv
    subst huid
    by_cases hmis : st.redisPresent = true ∧ redisGet st.store old.userId ≠ some old
    · rw [refreshHandler_mismatch hv hmis] at hsucc
      simp at hsucc
    · cases hu : findUserById st old.userId with
      | none =>
        rw [refreshHandler_noUser hv hmis hu] at hsucc
        simp at hsucc
      | some u =>
        have hid : u.id = old.userId := findUserById_id hu
        have hred := refreshHandler_ok hv hmis hu
        rw [hred, hid]
        refine ⟨persistedFor_store_self hredis _ _, ?_, ?_⟩
        · intro t n2 htu htn hcon
          cases hv2 : verifyRefresh t n2 with
          | none =>
            rw [refreshHandler_badVerify hv2 _] at hcon
            simp at hcon
          | some uid2 =>
            obtain ⟨huid2, _, _⟩ := verifyRefresh_some hv2
            subst huid2
            have hmis2 : (storeRefreshToken st old.userId
                  (generateTokens old.userId now).2).redisPresent = true ∧
                redisGet (storeRefreshToken st old.userId
                  (generateTokens old.userId now).2).store t.userId
                  ≠ some t := by
              constructor
              · rw [storeRefreshToken_redisPresent]
                exact hredis
              · rw [storeRefreshToken_store_of_present hredis, htu,
                  redisGet_redisSet_self]
                intro hcontra
                exact htn (Option.some.inj hcontra).symm
            rw [refreshHandler_mismatch hv2 hmis2] at hcon
            simp at hcon
        · intro n2 hn2
          have hv2 : verifyRefresh (generateTokens old.userId now).2 n2
              = some (generateTokens old.userId now).2.userId := by
            unfold verifyRefresh generateTokens
            rw [if_pos ⟨rfl, hn2⟩]
          have hmis2 : ¬((storeRefreshToken st old.userId
                (generateTokens old.userId now).2).redisPresent = true ∧
              redisGet (storeRefreshToken st old.userId
                (generateTokens old.userId now).2).store
                (generateTokens old.userId now).2.userId
                ≠ some (generateTokens old.userId now).2) := by
            intro hcontra
            apply hcontra.2
            rw [storeRefreshToken_store_of_present hredis]
            exact redisGet_redisSet_self _ _ _
          have hu2 : findUserById (storeRefreshToken st old.userId
                (generateTokens old.userId now).2)
              (generateTokens old.userId now).2.userId = some u := by
            rw [findUserById_congr (storeRefreshToken_users _ _ _) _]
            exact hu
          rw [refreshHandler_ok hv2 hmis2 hu2]

/-- Counterexample to C2 as stated: in a deployment without the cache,
after a successful refresh the old token is still accepted by a later
refresh call, so more than one refresh token artifact remains valid. -/
theorem refresh_rotation_counterexample :
    (refreshHandler cacheFreeState (some oldTok) 100).1.status = 200 ∧
    oldTok ≠ (generateTokens "u1" 100).2 ∧
    (refreshHandler (refreshHandler cacheFreeState (some oldTok) 100).2
      (some oldTok) 200).1.status = 200 := by decide

/-- Witness for the amended C2 at a concrete cached deployment. -/
theorem refresh_rotation_with_cache_witness :
    persistedFor (refreshHandler cachedStateWithTok (some oldTok) 100).2 "u1"
        = some (generateTokens "u1" 100).2 ∧
    (refreshHandler (refreshHandler cachedStateWithTok (some oldTok) 100).2
      (some oldTok) 200).1.status ≠ 200 :=
  ⟨(refresh_rotation_with_cache cachedStateWithTok oldTok 100 rfl (by decide)).1,
   (refresh_rotation_with_cache cachedStateWithTok oldTok 100 rfl (by decide)).2.1
     oldTok 200 rfl (by decide)⟩

/-- Claim C3: the refresh endpoint answers 400 exactly when no token is
supplied, 401 exactly when the signature/expiry check fails, the
presented token differs from the cache entry while the cache exists, or
the user no longer exists; and every non-200 response carries no tokens
and leaves the state unchanged. -/
theorem refresh_errors_characterized (st : AuthState) (body : Option RToken) (now : Nat) :
    ((refreshHandler st body now).1.status = 400 ↔ body = none) ∧
    ((refreshHandler st body now).1.status = 401 ↔
      (∃ t, body = some t ∧
        (verifyRefresh t now = none ∨
         (st.redisPresent = true ∧ redisGet st.store t.userId ≠ some t) ∨
         (verifyRefresh t now = some t.userId ∧ findUserById st t.userId = none)))) ∧
    ((refreshHandler st body now).1.status ≠ 200 →
      (refreshHandler st body now).2 = st ∧ (refreshHandler st body now).1.data = none) := by
  cases body with
  | none =>
    refine ⟨by simp [refreshHandler], ?_, by simp [refreshHandler]⟩
    constructor
    · intro h
      exact absurd h (by simp [refreshHandler])
    · rintro ⟨t, ht, _⟩
      cases ht
  | some t =>
    cases hv : verifyRefresh t now with
    | none =>
      rw [refreshHandler_badVerify hv st]
      refine ⟨by simp, ?_, by simp⟩
      constructor
      · intro _
        exact ⟨t, rfl, Or.inl hv⟩
      · intro _
        rfl
    | some uid =>
      obtain ⟨huid, hsig, hexp⟩ := verifyRefresh_some hv
      subst huid
      by_cases hmis : st.redisPresent = true ∧ redisGet st.store t.userId ≠ some t
      · rw [refreshHandler_mismatch hv hmis]
        refine ⟨by simp, ?_, by simp⟩
        constructor
        · intro _
          exact ⟨t, rfl, Or.inr (Or.inl hmis)⟩
        · intro _
          rfl
      · cases hu : findUserById st t.userId with
        | none =>
          rw [refreshHandler_noUser hv hmis hu]
          refine ⟨by simp, ?_, by simp⟩
          constructor
          · intro _
            exact ⟨t, rfl, Or.inr (Or.inr ⟨hv, hu⟩)⟩
          · intro _
            rfl
        | some u =>
          rw [refreshHandler_ok hv hmis hu]
          refine ⟨by simp, ?_, ?_⟩
          · constructor
            · intro h
              exact absurd h (by simp)
            · rintro ⟨t2, ht2, hcase⟩
              injection ht2 with he
              subst he
              rcases hcase with h1 | h2 | h3
              · rw [hv] at h1
                cases h1
              · exact absurd h2 hmis
              · rw [h3.2] at hu
                cases hu
          · intro h
            simp at h

/-- Witness for C3: a call without a token is rejected with an unchanged
state and no tokens issued. -/
theorem refresh_errors_characterized_witness :
    (refreshHandler cachedState none 0).2 = cachedState ∧
    (refreshHandler cachedState none 0).1.data = none :=
  (refresh_errors_characterized cachedState none 0).2.2 (by decide)

/-- Claim C4 (amended to deployments with the cache): every refresh
token carried in a success response of register, login or refresh is
persisted for its user when the Redis client exists. -/
theorem returned_tokens_persisted_with_cache (hashFn : String → String)
    (st : AuthState) (hredis : st.redisPresent = true) :
    (∀ name email pw newId now su a r,
      (registerHandler hashFn st name email pw newId now).1.data = some (su, a, r) →
      persistedFor (registerHandler hashFn st name email pw newId now).2 su.id = some r) ∧
    (∀ email pw now su a r,
      (loginHandler hashFn st email pw now).1.data = some (su, a, r) →
      persistedFor (loginHandler hashFn st email pw now).2 su.id = some r) ∧
    (∀ body now a r,
      (refreshHandler st body now).1.data = some (a, r) →
      persistedFor (refreshHandler st body now).2 r.userId = some r) := by
  refine ⟨?_, ?_, ?_⟩
  · intro name email pw newId now su a r hdata
    rcases name with _ | nm
    · simp [registerHandler] at hdata
    rcases email with _ | em
    · simp [registerHandler] at hdata
    rcases pw with _ | pw
    · simp [registerHandler] at hdata
    by_cases h1 : nm.isEmpty ∨ em.isEmpty ∨ pw.isEmpty
    · simp only [registerHandler] at hdata
      rw [if_pos h1] at hdata
      cases hdata
    by_cases h2 : pw.length < 8
    · simp only [registerHandler] at hdata
      rw [if_neg h1, if_pos h2] at hdata
      cases hdata
    cases hf : findUserByEmail st em with
    | some u0 =>
      simp only [registerHandler, hf] at hdata
      rw [if_neg h1, if_neg h2] at hdata
      cases hdata
    | none =>
      have hred : registerHandler hashFn st (some nm) (some em) (some pw) newId now
          = (⟨201, some ((⟨newId, nm, em, hashFn pw⟩ : User).safe,
                (generateTokens newId now).1, (generateTokens newId now).2), none⟩,
              storeRefreshToken { st with users := st.users ++ [⟨newId, nm, em, hashFn pw⟩] }
                newId (generateTokens newId now).2) := by
        simp only [registerHandler, hf]
        rw [if_neg h1, if_neg h2]
      rw [hred] at hdata ⊢
      injection hdata with h3
      rw [Prod.mk.injEq, Prod.mk.injEq] at h3
      obtain ⟨h4, h5, h6⟩ := h3
      subst h4
      subst h6
      have hpres : ({ st with users := st.users ++ [(⟨newId, nm, em, hashFn pw⟩ : User)] }
          : AuthState).redisPresent = true := hredis
      exact persistedFor_store_self hpres _ _
  · intro email pw now su a r hdata
    rcases email with _ | em
    · simp [loginHandler] at hdata
    rcases pw with _ | pw
    · simp [loginHandler] at hdata
    by_cases h1 : em.isEmpty ∨ pw.isEmpty
    · simp only [loginHandler] at hdata
      rw [if_pos h1] at hdata
      cases hdata
    cases hf : findUserByEmail st em with
    | none =>
      simp only [loginHandler, hf] at hdata
      rw [if_neg h1] at hdata
      cases hdata
    | some u =>
      by_cases h2 : hashFn pw = u.pwHash
      · have hred : loginHandler hashFn st (some em) (some pw) now
            = (⟨200, some (u.safe, (generateTokens u.id now).1, (generateTokens u.id now).2),
                  none⟩,
                storeRefreshToken st u.id (generateTokens u.id now).2) := by
          simp only [loginHandler, hf]
          rw [if_neg h1, if_pos h2]
        rw [hred] at hdata ⊢
        injection hdata with h3
        rw [Prod.mk.injEq, Prod.mk.injEq] at h3
        obtain ⟨h4, h5, h6⟩ := h3
        subst h4
        subst h6
        exact persistedFor_store_self hredis _ _
      · simp only [loginHandler, hf] at hdata
        rw [if_neg h1, if_neg h2] at hdata
        cases hdata
  · intro body now a r hdata
    cases body with
    | none => cases hdata
    | some t =>
      cases hv : verifyRefresh t now with
      | none =>
        rw [refreshHandler_badVerify hv st] at hdata
        cases hdata
      | some uid =>
        obtain ⟨huid, _, _⟩ := verifyRefresh_some hv
        subst huid
        by_cases hmis : st.redisPresent = true ∧ redisGet st.store t.userId ≠ some t
        · rw [refreshHandler_mismatch hv hmis] at hdata
          cases hdata
        · cases hu : findUserById st t.userId with
          | none =>
            rw [refreshHandler_noUser hv hmis hu] at hdata
            cases hdata
          | some u =>
            rw [refreshHandler_ok hv hmis hu] at hdata ⊢
            injection hdata with h3
            rw [Prod.mk.injEq] at h3
            obtain ⟨h4, h5⟩ := h3
            subst h5
            exact persistedFor_store_self hredis _ _

/-- Counterexample to C4 as stated: without the cache, login succeeds
and returns a refresh token, but nothing is persisted for the user, so
the token can be neither checked nor revoked. -/
theorem returned_tokens_persisted_counterexample :
    (loginHandler id cacheFreeState (some "ann@example.com") (some "pw12345678") 0).1.status
        = 200 ∧
    (loginHandler id cacheFreeState (some "ann@example.com") (some "pw12345678") 0).1.data
        = some (⟨"u1", "Ann", "ann@example.com"⟩,
            (generateTokens "u1" 0).1, (generateTokens "u1" 0).2) ∧
    persistedFor
      (loginHandler id cacheFreeState (some "ann@example.com") (some "pw12345678") 0).2 "u1"
        = none := by decide

/-- Witness for the amended C4 at a concrete cached deployment. -/
theorem returned_tokens_persisted_with_cache_witness :
    persistedFor
      (loginHandler id cachedState (some "ann@example.com") (some "pw12345678") 0).2 "u1"
        = some (generateTokens "u1" 0).2 :=
  (returned_tokens_persisted_with_cache id cachedState rfl).2.1
    (some "ann@example.com") (some "pw12345678") 0
    ⟨"u1", "Ann", "ann@example.com"⟩ (generateTokens "u1" 0).1 (generateTokens "u1" 0).2
    (by decide)

/-- Claim C7: with the Redis client absent, token storage and
invalidation are no-ops, the refresh endpoint skips the persisted-token
comparison (any signed unexpired token of an existing user is accepted),
and register, login, logout, refresh and change-password all complete
with their success statuses under their normal preconditions — no
operation fails because the cache is missing. -/
theorem cache_optional_ops (hashFn : String → String) (st : AuthState)
    (hno : st.redisPresent = false) :
    (∀ uid t, storeRefreshToken st uid t = st) ∧
    (∀ uid, invalidateRefreshToken st uid = st) ∧
    (∀ body now, (logoutHandler st body now).1.status = 200) ∧
    (∀ t now u, verifyRefresh t now = some t.userId →
      findUserById st t.userId = some u →
      (refreshHandler st (some t) now).1.status = 200) ∧
    (∀ nm em pw newId now, ¬nm.isEmpty → ¬em.isEmpty → ¬pw.isEmpty →
      ¬pw.length < 8 → findUserByEmail st em = none →
      (registerHandler hashFn st (some nm) (some em) (some pw) newId now).1.status = 201) ∧
    (∀ em pw now u, ¬em.isEmpty → ¬pw.isEmpty →
      findUserByEmail st em = some u → hashFn pw = u.pwHash →
      (loginHandler hashFn st (some em) (some pw) now).1.status = 200) ∧
    (∀ atok cpw npw now u, verifyAccess atok now = some atok.userId →
      ¬cpw.isEmpty → ¬npw.isEmpty → ¬npw.length < 8 →
      findUserById st atok.userId = some u → hashFn cpw = u.pwHash →
      (changePasswordHandler hashFn st (some atok) (some cpw) (some npw) now).1.status
        = 200) := by
  refine ⟨?_, ?_, ?_, ?_, ?_, ?_, ?_⟩
  · intro uid t
    unfold storeRefreshToken
    rw [hno]
    rfl
  · intro uid
    unfold invalidateRefreshToken
    rw [hno]
    rfl
  · intro body now
    rcases body with _ | t
    · rfl
    · cases hv : verifyRefresh t now with
      | none => simp [logoutHandler, hv]
      | some uid => simp [logoutHandler, hv]
  · intro t now u hv hu
    have hmis : ¬(st.redisPresent = true ∧ redisGet st.store t.userId ≠ some t) := by
      intro hcontra
      rw [hno] at hcontra
      cases hcontra.1
    rw [refreshHandler_ok hv hmis hu]
  · intro nm em pw newId now hnm hem hpw hlen hf
    have h1 : ¬(nm.isEmpty ∨ em.isEmpty ∨ pw.isEmpty) := by
      intro hcontra
      rcases hcontra with h | h | h
      · exact hnm h
      · exact hem h
      · exact hpw h
    simp only [registerHandler, hf]
    rw [if_neg h1, if_neg hlen]
  · intro em pw now u hem hpw hf hmatch
    have h1 : ¬(em.isEmpty ∨ pw.isEmpty) := by
      intro hcontra
      rcases hcontra with h | h
      · exact hem h
      · exact hpw h
    simp only [loginHandler, hf]
    rw [if_neg h1, if_pos hmatch]
  · intro atok cpw npw now u hv hcpw hnpw hlen hu hmatch
    have h1 : ¬(cpw.isEmpty ∨ npw.isEmpty) := by
      intro hcontra
      rcases hcontra with h | h
      · exact hcpw h
      · exact hnpw h
    simp only [changePasswordHandler, hv, hu]
    rw [if_neg h1, if_neg hlen, if_pos hmatch]

/-- Witness for C7: the no-op store and a cache-free refresh that still
succeeds, at concrete inputs. -/
theorem cache_optional_ops_witness :
    storeRefreshToken cacheFreeState "u1" oldTok = cacheFreeState ∧
    (refreshHandler cacheFreeState (some oldTok) 100).1.status = 200 :=
  ⟨(cache_optional_ops id cacheFreeState rfl).1 "u1" oldTok,
   (cache_optional_ops id cacheFreeState rfl).2.2.2.1 oldTok 100
     ⟨"u1", "Ann", "ann@example.com", "pw12345678"⟩ (by decide) (by decide)⟩

/-- Claim C8: a login attempt with an unregistered email and a login
attempt with a registered email but wrong password produce identical
responses: 401 with the error Invalid email or password and no data. -/
theorem login_indistinguishable_failures (hashFn : String → String) (st : AuthState)
    (e1 p1 e2 p2 : String) (n1 n2 : Nat)
    (he1 : ¬e1.isEmpty) (hp1 : ¬p1.isEmpty) (he2 : ¬e2.isEmpty) (hp2 : ¬p2.isEmpty)
    (hmiss : findUserByEmail st e1 = none)
    (hwrong : ∀ u, findUserByEmail st e2 = some u → hashFn p2 ≠ u.pwHash) :
    (loginHandler hashFn st (some e1) (some p1) n1).1
        = (loginHandler hashFn st (some e2) (some p2) n2).1 ∧
    (loginHandler hashFn st (some e1) (some p1) n1).1
        = ⟨401, none, some "Invalid email or password."⟩ := by
  have g1 : ¬(e1.isEmpty ∨ p1.isEmpty) := by
    intro hcontra
    rcases hcontra with h | h
    · exact he1 h
    · exact hp1 h
  have g2 : ¬(e2.isEmpty ∨ p2.isEmpty) := by
    intro hcontra
    rcases hcontra with h | h
    · exact he2 h
    · exact hp2 h
  have h1 : (loginHandler hashFn st (some e1) (some p1) n1).1
      = ⟨401, none, some "Invalid email or password."⟩ := by
    simp only [loginHandler, hmiss]
    rw [if_neg g1]
  have h2 : (loginHandler hashFn st (some e2) (some p2) n2).1
      = ⟨401, none, some "Invalid email or password."⟩ := by
    cases hf : findUserByEmail st e2 with
    | none =>
      simp only [loginHandler, hf]
      rw [if_neg g2]
    | some u =>
      simp only [loginHandler, hf]
      rw [if_neg g2, if_neg (hwrong u hf)]
  rw [h1, h2]
  exact ⟨rfl, rfl⟩

/-- Witness for C8: an unknown email and a known email with a wrong
password get the same concrete 401 response. -/
theorem login_indistinguishable_failures_witness :
    (loginHandler id cacheFreeState (some "bob@example.com") (some "whatever") 0).1
        = (loginHandler id cacheFreeState (some "ann@example.com") (some "wrongpw") 0).1 :=
  (login_indistinguishable_failures id cacheFreeState
    "bob@example.com" "whatever" "ann@example.com" "wrongpw" 0 0
    (by decide) (by decide) (by decide) (by decide) (by decide)
    (fun u hu => by
      injection hu with he
      subst he
      decide)).1

end FlowFit
